import Mathlib

/-!
Verification development for the SeoInsight repository.

The definitions below are a shallow embedding of `src/seo_analyzer.py` and
`src/database.py`.  Python strings are modelled as Lean `String` (sequences of
code points); Python dicts with string keys are modelled as association lists
with Python-dict insert semantics (updating an existing key in place, appending
new keys); Python `None` is `Option.none`.  The external HTML parse tree
(BeautifulSoup) is modelled by the `ParsedDoc` structure, which records exactly
the queries the extractor performs.  Lean's own `String.startsWith`,
`String.replace`, `String.toLower` and `String.trim` are not used because they
do not reduce inside the kernel; the `py`-prefixed helpers below are
code-point-level implementations of the corresponding Python methods.
-/

/-- Python `str.lower()` (ASCII case mapping, which is all the analyzed
attribute names use). -/
def pyLower (s : String) : String := ⟨s.data.map Char.toLower⟩

/-- Python `str.startswith(p)`. -/
def pyStartswith (s p : String) : Bool := p.data.isPrefixOf s.data

/-- Python `str.strip()`: remove leading and trailing whitespace. -/
def pyStrip (s : String) : String :=
  ⟨((s.data.dropWhile Char.isWhitespace).reverse.dropWhile Char.isWhitespace).reverse⟩

/-- One pass of Python `str.replace(pat, '')` over a character list: every
non-overlapping occurrence of `pat` is deleted, scanning left to right.  The
`fuel` argument (instantiated with the length of the scanned list, which bounds
the number of steps) makes the recursion structural so that the kernel can
evaluate it. -/
def replChars (fuel : Nat) (pat s : List Char) : List Char :=
  match fuel with
  | 0 => s
  | fuel' + 1 =>
    match s with
    | [] => []
    | c :: rest =>
      if pat ≠ [] ∧ pat.isPrefixOf (c :: rest) then
        replChars fuel' pat ((c :: rest).drop pat.length)
      else
        c :: replChars fuel' pat rest

/-- Python `s.replace(pat, '')` for a non-empty literal `pat`. -/
def pyRemove (pat s : String) : String := ⟨replChars s.data.length pat.data s.data⟩

section UrlNormalizer

/-- Function `normalize_url` from `src/seo_analyzer.py`: prepend `https://` when the
input starts with neither scheme prefix, otherwise return it unchanged. -/
def normalize_url (url : String) : String :=
  if ¬ (pyStartswith url "http://" || pyStartswith url "https://") then
    "https://" ++ url
  else
    url

/-- The third candidate built inside `get_url_variations`:
`url.replace('https://', '').replace('http://', '')` when the input starts with
a scheme prefix (note: `str.replace` removes every occurrence, not only the
leading one), else the input itself. -/
def stripSchemes (url : String) : String :=
  if pyStartswith url "http://" || pyStartswith url "https://" then
    pyRemove "http://" (pyRemove "https://" url)
  else
    url

/-- Python `list(dict.fromkeys(l))`: deduplicate keeping the first occurrence
of each element, preserving order.  `seen` accumulates the keys already kept. -/
def dedupKeepFirst (seen : List String) : List String → List String
  | [] => []
  | x :: xs =>
    if x ∈ seen then dedupKeepFirst seen xs
    else x :: dedupKeepFirst (x :: seen) xs

/-- Function `get_url_variations` from `src/seo_analyzer.py`. -/
def get_url_variations (url : String) : List String :=
  let normalized := normalize_url url
  let variations := [url, normalized, stripSchemes url]
  dedupKeepFirst [] variations

/-- The candidate list the claim describes instead of `stripSchemes`: only the
leading `http://`/`https://` prefix removed, when originally present, and no
other occurrence of these substrings touched. -/
def stripLeadingSchemeOnly (raw : String) : String :=
  if pyStartswith raw "http://" then ⟨raw.data.drop 7⟩
  else if pyStartswith raw "https://" then ⟨raw.data.drop 8⟩
  else raw

/-- The variation list as the claim words it (original, normalized,
leading-prefix-stripped, deduplicated keeping first occurrences). -/
def variationsClaimed (raw : String) : List String :=
  dedupKeepFirst [] [raw, normalize_url raw, stripLeadingSchemeOnly raw]

end UrlNormalizer
section Extractor

/-- An HTML `<meta>` element as the extractor reads it: its `name`, `property`
and `content` attributes, each defaulting to the empty string when absent
(`meta.get(attr, '')`). -/
structure MetaTag where
  name : String
  property : String
  content : String
deriving Repr, DecidableEq

/-- The queries `extract_seo_tags` performs on the BeautifulSoup parse tree:
the text of the first `<title>` element (if any), all `<meta>` elements in
document order, the text of every `<h1>` element in document order, and the
first `<link rel="canonical">` element (outer `none` = no such link, inner
`none` = link without an `href` attribute). -/
structure ParsedDoc where
  titleTag : Option String
  metas : List MetaTag
  h1s : List String
  canonicalTag : Option (Option String)
deriving Repr, DecidableEq

/-- The `seo_data` dict built by `extract_seo_tags`, with its fixed keys. -/
structure SeoDocument where
  url : String
  title : String
  meta_description : String
  meta_keywords : String
  og_tags : List (String × String)
  twitter_tags : List (String × String)
  h1_tags : List String
  canonical : String
deriving Repr, DecidableEq

/-- Python dict lookup `d.get(k)` on a dict modelled as an association list. -/
def alookup {α : Type} (m : List (String × α)) (k : String) : Option α :=
  match m with
  | [] => none
  | (k', v) :: rest => if k' = k then some v else alookup rest k

/-- Python dict assignment `d[k] = v`: update an existing binding in place,
else append a new one. -/
def dinsert (m : List (String × String)) (k v : String) : List (String × String) :=
  match m with
  | [] => [(k, v)]
  | (k', v') :: rest =>
    if k' = k then (k', v) :: rest else (k', v') :: dinsert rest k v

/-- The body of the meta-tag loop in `extract_seo_tags`: classify one `<meta>`
element by the first matching condition and update `seo_data` accordingly. -/
def processMeta (acc : SeoDocument) (m : MetaTag) : SeoDocument :=
  let name := pyLower m.name
  let property_attr := pyLower m.property
  let content := m.content
  if name = "description" then { acc with meta_description := content }
  else if name = "keywords" then { acc with meta_keywords := content }
  else if pyStartswith property_attr "og:" then
    { acc with og_tags := dinsert acc.og_tags property_attr content }
  else if pyStartswith name "twitter:" then
    { acc with twitter_tags := dinsert acc.twitter_tags name content }
  else acc

/-- The successful branch of `extract_seo_tags` (a parse tree is held): build
the `seo_data` record, starting from all-empty defaults. -/
def buildSeoData (url : String) (t : ParsedDoc) : SeoDocument :=
  let base : SeoDocument :=
    { url := url, title := "", meta_description := "", meta_keywords := ""
      og_tags := [], twitter_tags := [], h1_tags := [], canonical := "" }
  let withTitle :=
    match t.titleTag with
    | some txt => { base with title := pyStrip txt }
    | none => base
  let afterMetas := t.metas.foldl processMeta withTitle
  let withH1 := { afterMetas with h1_tags := t.h1s.map pyStrip }
  match t.canonicalTag with
  | some href => { withH1 with canonical := href.getD "" }
  | none => withH1

/-- JSON-like values: the payloads `json.dumps`/`json.loads` move between the
analyzer's dicts and the database columns. -/
inductive Jval where
  | str : String → Jval
  | num : Int → Jval
  | obj : List (String × Jval) → Jval
  | arr : List Jval → Jval

def jOfStrMap (m : List (String × String)) : Jval :=
  Jval.obj (m.map fun kv => (kv.1, Jval.str kv.2))

def jOfStrList (l : List String) : Jval := Jval.arr (l.map Jval.str)

/-- The `seo_data` dict as the key/value mapping the Python method returns. -/
def seoDataDict (d : SeoDocument) : List (String × Jval) :=
  [("url", Jval.str d.url),
   ("title", Jval.str d.title),
   ("meta_description", Jval.str d.meta_description),
   ("meta_keywords", Jval.str d.meta_keywords),
   ("og_tags", jOfStrMap d.og_tags),
   ("twitter_tags", jOfStrMap d.twitter_tags),
   ("h1_tags", jOfStrList d.h1_tags),
   ("canonical", Jval.str d.canonical)]

/-- Method `extract_seo_tags` from `src/seo_analyzer.py`: when no parse tree is held
(`self.soup` is `None`, i.e. no successful fetch happened yet) it returns the
empty dict `{}`; otherwise the fully populated `seo_data` dict. -/
def extract_seo_tags (url : String) (soup : Option ParsedDoc) : List (String × Jval) :=
  match soup with
  | none => []
  | some t => seoDataDict (buildSeoData url t)

end Extractor

section Analyzer

/-- One entry of the `analysis` dict:
`{'status': ..., 'message': ..., 'score': ...}`. -/
structure CategoryResult where
  status : String
  message : String
  score : Nat
deriving Repr, DecidableEq

/-- The `analysis` dict of `analyze_seo_quality`, with its five fixed keys. -/
structure AnalysisResult where
  title : CategoryResult
  description : CategoryResult
  og_tags : CategoryResult
  twitter_tags : CategoryResult
  h1_structure : CategoryResult
deriving Repr, DecidableEq

/-- The title branch of `analyze_seo_quality`. -/
def analyzeTitle (title : String) : CategoryResult :=
  if title = "" then
    { status := "error", message := "Missing title tag", score := 0 }
  else if title.length < 30 then
    { status := "warning"
      message := "Title too short (" ++ toString title.length ++ " chars). Optimal: 50-60 chars"
      score := 10 }
  else if title.length > 60 then
    { status := "warning"
      message := "Title too long (" ++ toString title.length ++ " chars). Optimal: 50-60 chars"
      score := 15 }
  else
    { status := "success"
      message := "Title length optimal (" ++ toString title.length ++ " chars)"
      score := 20 }

/-- The meta-description branch of `analyze_seo_quality`. -/
def analyzeDescription (description : String) : CategoryResult :=
  if description = "" then
    { status := "error", message := "Missing meta description", score := 0 }
  else if description.length < 120 then
    { status := "warning"
      message := "Description too short (" ++ toString description.length ++
        " chars). Optimal: 150-160 chars"
      score := 10 }
  else if description.length > 160 then
    { status := "warning"
      message := "Description too long (" ++ toString description.length ++
        " chars). Optimal: 150-160 chars"
      score := 15 }
  else
    { status := "success"
      message := "Description length optimal (" ++ toString description.length ++ " chars)"
      score := 20 }

/-- The Open Graph branch of `analyze_seo_quality`. -/
def analyzeOgTags (og_tags : List (String × String)) : CategoryResult :=
  let required_og := ["og:title", "og:description", "og:type", "og:url"]
  let missing_og := required_og.filter (fun tag => (alookup og_tags tag).isNone)
  if og_tags = [] then
    { status := "error", message := "No Open Graph tags found", score := 0 }
  else if missing_og ≠ [] then
    { status := "warning"
      message := "Missing OG tags: " ++ String.intercalate ", " missing_og
      score := 10 }
  else
    { status := "success", message := "All essential Open Graph tags present", score := 20 }

/-- The Twitter Card branch of `analyze_seo_quality`. -/
def analyzeTwitterTags (twitter_tags : List (String × String)) : CategoryResult :=
  let required_twitter := ["twitter:card", "twitter:title", "twitter:description"]
  let missing_twitter := required_twitter.filter (fun tag => (alookup twitter_tags tag).isNone)
  if twitter_tags = [] then
    { status := "error", message := "No Twitter Card tags found", score := 0 }
  else if missing_twitter ≠ [] then
    { status := "warning"
      message := "Missing Twitter tags: " ++ String.intercalate ", " missing_twitter
      score := 10 }
  else
    { status := "success", message := "All essential Twitter Card tags present", score := 20 }

/-- The H1-structure branch of `analyze_seo_quality`. -/
def analyzeH1 (h1_tags : List String) : CategoryResult :=
  if h1_tags = [] then
    { status := "error", message := "No H1 tag found", score := 0 }
  else if h1_tags.length > 1 then
    { status := "warning"
      message := "Multiple H1 tags found (" ++ toString h1_tags.length ++
        "). Should have only one"
      score := 10 }
  else
    { status := "success", message := "Single H1 tag found (optimal)", score := 20 }

/-- Method `analyze_seo_quality` from `src/seo_analyzer.py`, as a function of the
extracted `seo_data` (whose `.get(...)` defaults are the record's fields). -/
def analyze_seo_quality (d : SeoDocument) : AnalysisResult :=
  { title := analyzeTitle d.title
    description := analyzeDescription d.meta_description
    og_tags := analyzeOgTags d.og_tags
    twitter_tags := analyzeTwitterTags d.twitter_tags
    h1_structure := analyzeH1 d.h1_tags }

/-- The view `analysis.values()` in the dict's insertion order. -/
def analysisValues (a : AnalysisResult) : List CategoryResult :=
  [a.title, a.description, a.og_tags, a.twitter_tags, a.h1_structure]

/-- Method `calculate_seo_score` from `src/seo_analyzer.py`:
`sum(item['score'] for item in analysis.values())`. -/
def calculate_seo_score (a : AnalysisResult) : Nat :=
  ((analysisValues a).map (fun item => item.score)).sum

end Analyzer

section PreviewResolver

/-- The dict `get_preview_data` returns. -/
structure PreviewData where
  title : String
  description : String
  image : String
  url : String
  domain : String
deriving Repr, DecidableEq

/-- Python `opt or s` where `opt` is a `d.get(k)` result (string or `None`)
and `s` a string: the left value when truthy (present and non-empty), else
`s`. -/
def pyOr (o : Option String) (dflt : String) : String :=
  match o with
  | some v => if v = "" then dflt else v
  | none => dflt

/-- Method `get_preview_data` from `src/seo_analyzer.py`.  Here `netloc` stands for the
external `urllib.parse.urlparse(...).netloc`, passed in as a parameter. -/
def get_preview_data (netloc : String → String) (d : SeoDocument) : PreviewData :=
  let og_tags := d.og_tags
  let twitter_tags := d.twitter_tags
  { title := pyOr (alookup og_tags "og:title")
      (pyOr (alookup twitter_tags "twitter:title") d.title)
    description := pyOr (alookup og_tags "og:description")
      (pyOr (alookup twitter_tags "twitter:description") d.meta_description)
    image := pyOr (alookup og_tags "og:image")
      ((alookup twitter_tags "twitter:image").getD "")
    url := d.url
    domain := if d.url = "" then "" else netloc d.url }

/-- Lookup `d.get(k)` restricted to non-empty values: `some v` exactly when the key
is present with a non-empty value. -/
def nonEmptyOpt (o : Option String) : Option String :=
  match o with
  | some v => if v = "" then none else some v
  | none => none

/-- The preview title exactly as the claim words it: `og:title` if non-empty,
else `twitter:title` if non-empty, else `doc.title`, else the empty string
(the last two cases coincide: when `doc.title` is empty the result is the
empty string). -/
def resolveTitleClaimed (d : SeoDocument) : String :=
  match nonEmptyOpt (alookup d.og_tags "og:title") with
  | some v => v
  | none =>
    match nonEmptyOpt (alookup d.twitter_tags "twitter:title") with
    | some v => v
    | none => d.title

/-- The preview description as the claim words it, over `og:description`,
`twitter:description` and `meta_description`. -/
def resolveDescriptionClaimed (d : SeoDocument) : String :=
  match nonEmptyOpt (alookup d.og_tags "og:description") with
  | some v => v
  | none =>
    match nonEmptyOpt (alookup d.twitter_tags "twitter:description") with
    | some v => v
    | none => d.meta_description

/-- The preview image as the claim words it: `og:image` if non-empty, else
the value of `twitter:image` whenever that key is present (a presence check,
not a non-emptiness check), else the empty string. -/
def resolveImageClaimed (d : SeoDocument) : String :=
  match nonEmptyOpt (alookup d.og_tags "og:image") with
  | some v => v
  | none =>
    match alookup d.twitter_tags "twitter:image" with
    | some v => v
    | none => ""

end PreviewResolver

section Database

/-- One row of the `seo_analyses` table, as written by `save_analysis`.
JSON columns are modelled by the JSON value itself: for the dict/list
payloads stored here, `json.dumps` followed by parsing on read is the
identity, and psycopg2 may hand back the columns already parsed (which
`safe_json_loads` passes through unchanged). -/
structure Row where
  url : String
  domain : String
  title : String
  meta_description : String
  meta_keywords : String
  og_tags : Jval
  twitter_tags : Jval
  h1_tags : Jval
  canonical : String
  seo_score : Int
  analysis_results : Jval
  analyzed_at : Nat

def jOfCategory (c : CategoryResult) : Jval :=
  Jval.obj [("status", Jval.str c.status), ("message", Jval.str c.message),
            ("score", Jval.num (Int.ofNat c.score))]

/-- The payload `json.dumps(analysis)` as a JSON value. -/
def jOfAnalysis (a : AnalysisResult) : Jval :=
  Jval.obj [("title", jOfCategory a.title),
            ("description", jOfCategory a.description),
            ("og_tags", jOfCategory a.og_tags),
            ("twitter_tags", jOfCategory a.twitter_tags),
            ("h1_structure", jOfCategory a.h1_structure)]

/-- Method `save_analysis` from `src/database.py`: insert one row into the
`seo_analyses` table.  `netloc` models the external
`urlparse(...).netloc`; `now` is the server-assigned `analyzed_at`
timestamp. -/
def save_analysis (netloc : String → String) (db : List Row) (seo_data : SeoDocument)
    (analysis : AnalysisResult) (score : Int) (now : Nat) : List Row :=
  db ++ [{ url := seo_data.url
           domain := netloc seo_data.url
           title := seo_data.title
           meta_description := seo_data.meta_description
           meta_keywords := seo_data.meta_keywords
           og_tags := jOfStrMap seo_data.og_tags
           twitter_tags := jOfStrMap seo_data.twitter_tags
           h1_tags := jOfStrList seo_data.h1_tags
           canonical := seo_data.canonical
           seo_score := score
           analysis_results := jOfAnalysis analysis
           analyzed_at := now }]

/-- The clause `ORDER BY analyzed_at DESC LIMIT 1` over the matching rows: a row with
the greatest timestamp (ties broken towards earlier rows; the theorems below
only use it where one timestamp is strictly greatest). -/
def pickLatest : List Row → Option Row
  | [] => none
  | r :: rest =>
    match pickLatest rest with
    | none => some r
    | some b => if b.analyzed_at > r.analyzed_at then some b else some r

/-- Helper `safe_json_loads` from `get_analysis_by_url`: values already parsed as
dict/list are returned as-is; anything unparseable yields `{}`. -/
def safe_json_loads (v : Jval) : Jval :=
  match v with
  | Jval.obj _ => v
  | Jval.arr _ => v
  | _ => Jval.obj []

/-- Python truthiness of a JSON value (used by `if result[5]`). -/
def jTruthy (v : Jval) : Bool :=
  match v with
  | Jval.str s => s != ""
  | Jval.num n => n != 0
  | Jval.obj l => !l.isEmpty
  | Jval.arr l => !l.isEmpty

/-- Expression `column or ''` on a (non-null) string column: identity. -/
def orEmpty (s : String) : String := if s = "" then "" else s

/-- Method `get_analysis_by_url` from `src/database.py`: find the most recent row
whose stored `url` equals any of the input's variations (`url = ANY(%s)`),
and return the nine-entry record the function builds from it. -/
def get_analysis_by_url (db : List Row) (url : String) : Option (List (String × Jval)) :=
  let unique_variations := get_url_variations url
  let matching := db.filter (fun r => unique_variations.contains r.url)
  match pickLatest matching with
  | none => none
  | some r =>
    some [("url", Jval.str r.url),
          ("title", Jval.str (orEmpty r.title)),
          ("meta_description", Jval.str (orEmpty r.meta_description)),
          ("og_tags", safe_json_loads r.og_tags),
          ("twitter_tags", safe_json_loads r.twitter_tags),
          ("h1_tags", if jTruthy r.h1_tags then safe_json_loads r.h1_tags else Jval.arr []),
          ("seo_score", Jval.num r.seo_score),
          ("analysis_results", safe_json_loads r.analysis_results),
          ("analyzed_at", Jval.num (Int.ofNat r.analyzed_at))]

end Database
/-- A document whose title has exactly 30 characters and whose description
exactly 160, exercising both upper/lower boundary branches. -/
def boundaryDoc : SeoDocument :=
  { url := "", title := "abcdefghijklmnopqrstuvwxyz0123"
    meta_description := ⟨List.replicate 160 'd'⟩, meta_keywords := ""
    og_tags := [], twitter_tags := [], h1_tags := [], canonical := "" }

/-- The claim C4 example document: no Open Graph tags and a `twitter:image`
key present with an empty value. -/
def imageExampleDoc : SeoDocument :=
  { url := "", title := "", meta_description := "", meta_keywords := ""
    og_tags := [], twitter_tags := [("twitter:image", "")], h1_tags := [], canonical := "" }

/-- The all-empty `SeoDocument`, used as a concrete witness input. -/
def emptySeoDoc : SeoDocument :=
  { url := "", title := "", meta_description := "", meta_keywords := ""
    og_tags := [], twitter_tags := [], h1_tags := [], canonical := "" }

/-- A parse tree with no title, meta, h1 or canonical tags. -/
def emptyParsedDoc : ParsedDoc :=
  { titleTag := none, metas := [], h1s := [], canonicalTag := none }

/-- A fully populated document used to exhibit the C9 round-trip gap. -/
def storedDoc : SeoDocument :=
  { url := "u", title := "t", meta_description := "m", meta_keywords := "kw"
    og_tags := [("og:a", "1")], twitter_tags := [], h1_tags := ["h"], canonical := "c" }

theorem mem_dedupKeepFirst (l : List String) :
    ∀ (seen : List String) (x : String), x ∈ dedupKeepFirst seen l ↔ x ∈ l ∧ x ∉ seen := by
  induction l with
  | nil => intro seen x; simp [dedupKeepFirst]
  | cons y ys ih =>
    intro seen x
    simp only [dedupKeepFirst]
    split
    · rename_i hy
      rw [ih]
      constructor
      · rintro ⟨hx, hs⟩
        exact ⟨List.mem_cons_of_mem _ hx, hs⟩
      · rintro ⟨hx, hs⟩
        rcases List.mem_cons.mp hx with rfl | hx
        · exact absurd hy hs
        · exact ⟨hx, hs⟩
    · rename_i hy
      constructor
      · intro hx
        rcases List.mem_cons.mp hx with rfl | hx
        · exact ⟨List.mem_cons_self _ _, hy⟩
        · rcases (ih _ _).mp hx with ⟨h1, h2⟩
          exact ⟨List.mem_cons_of_mem _ h1, fun hc => h2 (List.mem_cons_of_mem _ hc)⟩
      · rintro ⟨hx, hs⟩
        rcases List.mem_cons.mp hx with rfl | hx
        · exact List.mem_cons_self _ _
        · by_cases hxy : x = y
          · subst hxy
            exact List.mem_cons_self _ _
          · refine List.mem_cons_of_mem _ ((ih _ _).mpr ⟨hx, fun hc => ?_⟩)
            rcases List.mem_cons.mp hc with h | h
            · exact hxy h
            · exact hs h

theorem nodup_dedupKeepFirst (l : List String) :
    ∀ seen : List String, (dedupKeepFirst seen l).Nodup := by
  induction l with
  | nil => intro seen; simp [dedupKeepFirst]
  | cons y ys ih =>
    intro seen
    simp only [dedupKeepFirst]
    split
    · exact ih seen
    · refine List.nodup_cons.mpr ⟨fun hc => ?_, ih _⟩
      exact ((mem_dedupKeepFirst _ _ _).mp hc).2 (List.mem_cons_self _ _)

theorem length_dedupKeepFirst (l : List String) :
    ∀ seen : List String, (dedupKeepFirst seen l).length ≤ l.length := by
  induction l with
  | nil => intro seen; simp [dedupKeepFirst]
  | cons y ys ih =>
    intro seen
    simp only [dedupKeepFirst]
    split
    · exact Nat.le_trans (ih seen) (Nat.le_succ _)
    · simpa using ih (y :: seen)

theorem head_get_url_variations (url : String) :
    (get_url_variations url).head? = some url := by
  simp [get_url_variations, dedupKeepFirst]

theorem length_get_url_variations (url : String) :
    1 ≤ (get_url_variations url).length ∧ (get_url_variations url).length ≤ 3 := by
  constructor
  · have h := head_get_url_variations url
    cases hv : get_url_variations url with
    | nil => rw [hv] at h; simp at h
    | cons a l => simp
  · exact length_dedupKeepFirst _ _

/-- C7: `normalize_url` prepends `https://` exactly when the input starts with
neither scheme prefix, returns inputs with a scheme unchanged, and is
idempotent. -/
theorem C7_normalize_url (s : String) :
    (pyStartswith s "http://" = false → pyStartswith s "https://" = false →
      normalize_url s = "https://" ++ s) ∧
    (pyStartswith s "http://" = true ∨ pyStartswith s "https://" = true →
      normalize_url s = s) ∧
    normalize_url (normalize_url s) = normalize_url s := by
  refine ⟨?_, ?_, ?_⟩
  · intro h1 h2
    simp [normalize_url, h1, h2]
  · intro h
    rcases h with h | h <;> simp [normalize_url, h]
  · unfold normalize_url
    split
    · have h : pyStartswith ("https://" ++ s) "https://" = true := by
        simp [pyStartswith, String.data_append]
      simp [h]
    · rfl

/-- Witness for C7 at concrete inputs with and without a scheme. -/
theorem C7_witness :
    normalize_url "example.com" = "https://" ++ "example.com" ∧
    normalize_url "http://example.com" = "http://example.com" ∧
    normalize_url (normalize_url "example.com") = normalize_url "example.com" := by
  refine ⟨(C7_normalize_url "example.com").1 (by decide) (by decide),
    (C7_normalize_url "http://example.com").2.1 (Or.inl (by decide)),
    (C7_normalize_url "example.com").2.2⟩

/-- C6 is false as stated: `str.replace` removes every occurrence of the
scheme substrings, not only the leading prefix, so on an input that contains
a second `https://` the produced variation list differs from the claimed
one (the code yields `a/b` where the claim demands `a/https://b`). -/
theorem C6_counterexample :
    get_url_variations "https://a/https://b" ≠ variationsClaimed "https://a/https://b" ∧
    get_url_variations "https://a/https://b" = ["https://a/https://b", "a/b"] := by
  constructor
  · decide
  · decide

/-- C6 (amended): the variation list is the three candidates — the original
input, its normalized form, and the input with every occurrence of
`https://`/`http://` removed when the input starts with such a prefix
(unchanged otherwise) — deduplicated preserving first occurrence, so the
original is first, the entries are pairwise distinct, and there are between
1 and 3 of them. -/
theorem C6_variations (raw : String) :
    (get_url_variations raw).head? = some raw ∧
    (get_url_variations raw).Nodup ∧
    (∀ x, x ∈ get_url_variations raw ↔
      (x = raw ∨ x = normalize_url raw ∨ x = stripSchemes raw)) ∧
    1 ≤ (get_url_variations raw).length ∧ (get_url_variations raw).length ≤ 3 := by
  refine ⟨head_get_url_variations raw, nodup_dedupKeepFirst _ _, ?_,
    length_get_url_variations raw⟩
  intro x
  show x ∈ dedupKeepFirst [] [raw, normalize_url raw, stripSchemes raw] ↔ _
  rw [mem_dedupKeepFirst]
  simp

/-- C10: before any successful fetch (`self.soup` is `None`),
`extract_seo_tags` returns the empty dict, which contains no key at all — in
particular none of the `SeoDocument` fields. -/
theorem C10_extract_before_fetch (url : String) :
    extract_seo_tags url none = [] ∧
    ∀ k : String, alookup (extract_seo_tags url none) k = none :=
  ⟨rfl, fun _ => rfl⟩

/-- C1: the title and description categories use strict threshold
comparisons: empty gives error/0, length strictly below 30 (resp. 120) gives
warning/10, strictly above 60 (resp. 160) gives warning/15, and every length
from 30 to 60 (resp. 120 to 160) inclusive gives success/20. -/
theorem C1_thresholds (d : SeoDocument) :
    (d.title = "" → (analyze_seo_quality d).title.status = "error" ∧
      (analyze_seo_quality d).title.score = 0) ∧
    (d.title ≠ "" → d.title.length < 30 → (analyze_seo_quality d).title.status = "warning" ∧
      (analyze_seo_quality d).title.score = 10) ∧
    (d.title.length > 60 → (analyze_seo_quality d).title.status = "warning" ∧
      (analyze_seo_quality d).title.score = 15) ∧
    (30 ≤ d.title.length → d.title.length ≤ 60 →
      (analyze_seo_quality d).title.status = "success" ∧
      (analyze_seo_quality d).title.score = 20) ∧
    (d.meta_description = "" → (analyze_seo_quality d).description.status = "error" ∧
      (analyze_seo_quality d).description.score = 0) ∧
    (d.meta_description ≠ "" → d.meta_description.length < 120 →
      (analyze_seo_quality d).description.status = "warning" ∧
      (analyze_seo_quality d).description.score = 10) ∧
    (d.meta_description.length > 160 → (analyze_seo_quality d).description.status = "warning" ∧
      (analyze_seo_quality d).description.score = 15) ∧
    (120 ≤ d.meta_description.length → d.meta_description.length ≤ 160 →
      (analyze_seo_quality d).description.status = "success" ∧
      (analyze_seo_quality d).description.score = 20) := by
  have hlen : ∀ s : String, s = "" → s.length = 0 := by
    intro s hs; rw [hs]; rfl
  refine ⟨?_, ?_, ?_, ?_, ?_, ?_, ?_, ?_⟩
  · intro h
    simp [analyze_seo_quality, analyzeTitle, h]
  · intro h1 h2
    simp [analyze_seo_quality, analyzeTitle, h1, h2]
  · intro h
    have hne : d.title ≠ "" := fun he => by
      have := hlen _ he
      omega
    have h30 : ¬ d.title.length < 30 := by omega
    simp [analyze_seo_quality, analyzeTitle, hne, h30, h]
  · intro h1 h2
    have hne : d.title ≠ "" := fun he => by
      have := hlen _ he
      omega
    have ha : ¬ d.title.length < 30 := by omega
    have hb : ¬ d.title.length > 60 := by omega
    simp [analyze_seo_quality, analyzeTitle, hne, ha, hb]
  · intro h
    simp [analyze_seo_quality, analyzeDescription, h]
  · intro h1 h2
    simp [analyze_seo_quality, analyzeDescription, h1, h2]
  · intro h
    have hne : d.meta_description ≠ "" := fun he => by
      have := hlen _ he
      omega
    have h120 : ¬ d.meta_description.length < 120 := by omega
    simp [analyze_seo_quality, analyzeDescription, hne, h120, h]
  · intro h1 h2
    have hne : d.meta_description ≠ "" := fun he => by
      have := hlen _ he
      omega
    have ha : ¬ d.meta_description.length < 120 := by omega
    have hb : ¬ d.meta_description.length > 160 := by omega
    simp [analyze_seo_quality, analyzeDescription, hne, ha, hb]

set_option maxRecDepth 4000 in
/-- Witness for C1: at the 30/160 boundaries both categories are optimal. -/
theorem C1_witness :
    (analyze_seo_quality boundaryDoc).title.status = "success" ∧
    (analyze_seo_quality boundaryDoc).title.score = 20 ∧
    (analyze_seo_quality boundaryDoc).description.status = "success" ∧
    (analyze_seo_quality boundaryDoc).description.score = 20 := by
  have h := C1_thresholds boundaryDoc
  obtain ⟨ht1, ht2⟩ := h.2.2.2.1 (by decide) (by decide)
  obtain ⟨hd1, hd2⟩ := h.2.2.2.2.2.2.2 (by decide) (by decide)
  exact ⟨ht1, ht2, hd1, hd2⟩

theorem analyzeTitle_score_le (t : String) : (analyzeTitle t).score ≤ 20 := by
  unfold analyzeTitle
  split_ifs <;> simp

theorem analyzeDescription_score_le (t : String) : (analyzeDescription t).score ≤ 20 := by
  unfold analyzeDescription
  split_ifs <;> simp

theorem analyzeOgTags_score_le (t : List (String × String)) : (analyzeOgTags t).score ≤ 20 := by
  unfold analyzeOgTags
  dsimp only []
  split_ifs <;> simp

theorem analyzeTwitterTags_score_le (t : List (String × String)) :
    (analyzeTwitterTags t).score ≤ 20 := by
  unfold analyzeTwitterTags
  dsimp only []
  split_ifs <;> simp

theorem analyzeH1_score_le (t : List String) : (analyzeH1 t).score ≤ 20 := by
  unfold analyzeH1
  split_ifs <;> simp

theorem calculate_seo_score_eq (a : AnalysisResult) :
    calculate_seo_score a = a.title.score + a.description.score + a.og_tags.score +
      a.twitter_tags.score + a.h1_structure.score := by
  simp [calculate_seo_score, analysisValues]
  omega

/-- C2: the total score is the arithmetic sum of the five category scores of
the analysis, and it lies between 0 and 100. -/
theorem C2_total_score (d : SeoDocument) :
    calculate_seo_score (analyze_seo_quality d) =
      (analyze_seo_quality d).title.score + (analyze_seo_quality d).description.score +
      (analyze_seo_quality d).og_tags.score + (analyze_seo_quality d).twitter_tags.score +
      (analyze_seo_quality d).h1_structure.score ∧
    0 ≤ calculate_seo_score (analyze_seo_quality d) ∧
    calculate_seo_score (analyze_seo_quality d) ≤ 100 := by
  have heq := calculate_seo_score_eq (analyze_seo_quality d)
  refine ⟨heq, Nat.zero_le _, ?_⟩
  rw [heq]
  have h1 := analyzeTitle_score_le d.title
  have h2 := analyzeDescription_score_le d.meta_description
  have h3 := analyzeOgTags_score_le d.og_tags
  have h4 := analyzeTwitterTags_score_le d.twitter_tags
  have h5 := analyzeH1_score_le d.h1_tags
  have e1 : (analyze_seo_quality d).title = analyzeTitle d.title := rfl
  have e2 : (analyze_seo_quality d).description = analyzeDescription d.meta_description := rfl
  have e3 : (analyze_seo_quality d).og_tags = analyzeOgTags d.og_tags := rfl
  have e4 : (analyze_seo_quality d).twitter_tags = analyzeTwitterTags d.twitter_tags := rfl
  have e5 : (analyze_seo_quality d).h1_structure = analyzeH1 d.h1_tags := rfl
  rw [e1, e2, e3, e4, e5]
  omega

theorem pyOr_getD (o : Option String) (dflt : String) :
    pyOr o dflt = (nonEmptyOpt o).getD dflt := by
  cases o with
  | none => rfl
  | some v => by_cases hv : v = "" <;> simp [pyOr, nonEmptyOpt, hv]

/-- C3: the preview title and description follow the non-empty fallback order
og tag, then twitter tag, then document field (with the empty string as the
final value when that field is itself empty). -/
theorem C3_preview_fallback (netloc : String → String) (d : SeoDocument) :
    (get_preview_data netloc d).title = resolveTitleClaimed d ∧
    (get_preview_data netloc d).description = resolveDescriptionClaimed d := by
  constructor
  · show pyOr (alookup d.og_tags "og:title")
      (pyOr (alookup d.twitter_tags "twitter:title") d.title) = _
    rw [pyOr_getD, pyOr_getD]
    unfold resolveTitleClaimed
    cases nonEmptyOpt (alookup d.og_tags "og:title") <;>
      cases nonEmptyOpt (alookup d.twitter_tags "twitter:title") <;> simp
  · show pyOr (alookup d.og_tags "og:description")
      (pyOr (alookup d.twitter_tags "twitter:description") d.meta_description) = _
    rw [pyOr_getD, pyOr_getD]
    unfold resolveDescriptionClaimed
    cases nonEmptyOpt (alookup d.og_tags "og:description") <;>
      cases nonEmptyOpt (alookup d.twitter_tags "twitter:description") <;> simp

/-- C4: the preview image takes a non-empty `og:image`, else the value of
`twitter:image` whenever that key is present (presence, not non-emptiness),
else the empty string; on the claim's example document the twitter branch is
taken and yields the empty string. -/
theorem C4_preview_image (netloc : String → String) (d : SeoDocument) :
    (get_preview_data netloc d).image = resolveImageClaimed d ∧
    alookup imageExampleDoc.twitter_tags "twitter:image" = some "" ∧
    (get_preview_data netloc imageExampleDoc).image = "" := by
  refine ⟨?_, rfl, rfl⟩
  show pyOr (alookup d.og_tags "og:image")
    ((alookup d.twitter_tags "twitter:image").getD "") = _
  rw [pyOr_getD]
  unfold resolveImageClaimed
  cases nonEmptyOpt (alookup d.og_tags "og:image") <;>
    cases htw : alookup d.twitter_tags "twitter:image" <;> simp [htw]

theorem alookup_dinsert (l : List (String × String)) (k v : String) :
    alookup (dinsert l k v) k = some v := by
  induction l with
  | nil => simp [dinsert, alookup]
  | cons kv rest ih =>
    obtain ⟨k', v'⟩ := kv
    by_cases hk : k' = k
    · simp [dinsert, alookup, hk]
    · simp [dinsert, alookup, hk, ih]

/-- C5: each meta element is classified by the first matching condition in
the fixed order description / keywords / og-prefix / twitter-prefix, elements
matching none leave the state unchanged, and two elements producing the same
og or twitter key leave the later element's value in the mapping. -/
theorem C5_meta_classification (acc : SeoDocument) (m m1 m2 : MetaTag) :
    (pyLower m.name = "description" →
      processMeta acc m = { acc with meta_description := m.content }) ∧
    (pyLower m.name ≠ "description" → pyLower m.name = "keywords" →
      processMeta acc m = { acc with meta_keywords := m.content }) ∧
    (pyLower m.name ≠ "description" → pyLower m.name ≠ "keywords" →
      pyStartswith (pyLower m.property) "og:" = true →
      processMeta acc m =
        { acc with og_tags := dinsert acc.og_tags (pyLower m.property) m.content }) ∧
    (pyLower m.name ≠ "description" → pyLower m.name ≠ "keywords" →
      pyStartswith (pyLower m.property) "og:" = false →
      pyStartswith (pyLower m.name) "twitter:" = true →
      processMeta acc m =
        { acc with twitter_tags := dinsert acc.twitter_tags (pyLower m.name) m.content }) ∧
    (pyLower m.name ≠ "description" → pyLower m.name ≠ "keywords" →
      pyStartswith (pyLower m.property) "og:" = false →
      pyStartswith (pyLower m.name) "twitter:" = false →
      processMeta acc m = acc) ∧
    (∀ k, pyLower m1.property = k → pyLower m2.property = k →
      pyLower m1.name ≠ "description" → pyLower m1.name ≠ "keywords" →
      pyLower m2.name ≠ "description" → pyLower m2.name ≠ "keywords" →
      pyStartswith k "og:" = true →
      alookup (List.foldl processMeta acc [m1, m2]).og_tags k = some m2.content) ∧
    (∀ k, pyLower m1.name = k → pyLower m2.name = k →
      k ≠ "description" → k ≠ "keywords" →
      pyStartswith (pyLower m1.property) "og:" = false →
      pyStartswith (pyLower m2.property) "og:" = false →
      pyStartswith k "twitter:" = true →
      alookup (List.foldl processMeta acc [m1, m2]).twitter_tags k = some m2.content) := by
  refine ⟨?_, ?_, ?_, ?_, ?_, ?_, ?_⟩
  · intro h
    simp [processMeta, h]
  · intro h1 h2
    simp [processMeta, h1, h2]
  · intro h1 h2 h3
    simp [processMeta, h1, h2, h3]
  · intro h1 h2 h3 h4
    simp [processMeta, h1, h2, h3, h4]
  · intro h1 h2 h3 h4
    simp [processMeta, h1, h2, h3, h4]
  · intro k hk1 hk2 h1 h2 h3 h4 hog
    subst hk1
    have hog2 : pyStartswith (pyLower m2.property) "og:" = true := by
      rw [hk2]; exact hog
    have e1 : processMeta acc m1 =
        { acc with og_tags := dinsert acc.og_tags (pyLower m1.property) m1.content } := by
      simp [processMeta, h1, h2, hog]
    have e2 : ∀ b : SeoDocument, processMeta b m2 =
        { b with og_tags := dinsert b.og_tags (pyLower m2.property) m2.content } := by
      intro b
      simp [processMeta, h3, h4, hog2]
    simp only [List.foldl, e1, e2, hk2]
    exact alookup_dinsert _ _ _
  · intro k hk1 hk2 h1 h2 h3 h4 htw
    subst hk1
    have hd2 : pyLower m2.name ≠ "description" := by rw [hk2]; exact h1
    have hk2' : pyLower m2.name ≠ "keywords" := by rw [hk2]; exact h2
    have htw2 : pyStartswith (pyLower m2.name) "twitter:" = true := by
      rw [hk2]; exact htw
    have e1 : processMeta acc m1 =
        { acc with twitter_tags := dinsert acc.twitter_tags (pyLower m1.name) m1.content } := by
      simp [processMeta, h1, h2, h3, htw]
    have e2 : ∀ b : SeoDocument, processMeta b m2 =
        { b with twitter_tags := dinsert b.twitter_tags (pyLower m2.name) m2.content } := by
      intro b
      simp [processMeta, hd2, hk2', h4, htw2]
    simp only [List.foldl, e1, e2, hk2]
    exact alookup_dinsert _ _ _

theorem processMeta_url (acc : SeoDocument) (m : MetaTag) :
    (processMeta acc m).url = acc.url := by
  unfold processMeta
  dsimp only []
  split_ifs <;> rfl

theorem processMeta_title (acc : SeoDocument) (m : MetaTag) :
    (processMeta acc m).title = acc.title := by
  unfold processMeta
  dsimp only []
  split_ifs <;> rfl

theorem processMeta_h1_tags (acc : SeoDocument) (m : MetaTag) :
    (processMeta acc m).h1_tags = acc.h1_tags := by
  unfold processMeta
  dsimp only []
  split_ifs <;> rfl

theorem processMeta_canonical (acc : SeoDocument) (m : MetaTag) :
    (processMeta acc m).canonical = acc.canonical := by
  unfold processMeta
  dsimp only []
  split_ifs <;> rfl

theorem processMeta_desc (acc : SeoDocument) (m : MetaTag)
    (h : pyLower m.name ≠ "description") :
    (processMeta acc m).meta_description = acc.meta_description := by
  unfold processMeta
  dsimp only []
  split_ifs <;> simp_all

theorem processMeta_keywords (acc : SeoDocument) (m : MetaTag)
    (h : pyLower m.name ≠ "keywords") :
    (processMeta acc m).meta_keywords = acc.meta_keywords := by
  unfold processMeta
  dsimp only []
  split_ifs <;> simp_all

theorem processMeta_og (acc : SeoDocument) (m : MetaTag)
    (h : pyStartswith (pyLower m.property) "og:" = false) :
    (processMeta acc m).og_tags = acc.og_tags := by
  unfold processMeta
  dsimp only []
  split_ifs <;> simp_all

theorem processMeta_twitter (acc : SeoDocument) (m : MetaTag)
    (h : pyStartswith (pyLower m.name) "twitter:" = false) :
    (processMeta acc m).twitter_tags = acc.twitter_tags := by
  unfold processMeta
  dsimp only []
  split_ifs <;> simp_all

theorem foldl_processMeta_title (ms : List MetaTag) :
    ∀ acc : SeoDocument, (List.foldl processMeta acc ms).title = acc.title := by
  induction ms with
  | nil => intro acc; rfl
  | cons m ms ih =>
    intro acc
    rw [List.foldl_cons, ih, processMeta_title]

theorem foldl_processMeta_url (ms : List MetaTag) :
    ∀ acc : SeoDocument, (List.foldl processMeta acc ms).url = acc.url := by
  induction ms with
  | nil => intro acc; rfl
  | cons m ms ih =>
    intro acc
    rw [List.foldl_cons, ih, processMeta_url]

theorem foldl_processMeta_canonical (ms : List MetaTag) :
    ∀ acc : SeoDocument, (List.foldl processMeta acc ms).canonical = acc.canonical := by
  induction ms with
  | nil => intro acc; rfl
  | cons m ms ih =>
    intro acc
    rw [List.foldl_cons, ih, processMeta_canonical]

theorem foldl_processMeta_desc (ms : List MetaTag)
    (h : ∀ m ∈ ms, pyLower m.name ≠ "description") :
    ∀ acc : SeoDocument, (List.foldl processMeta acc ms).meta_description = acc.meta_description := by
  induction ms with
  | nil => intro acc; rfl
  | cons m ms ih =>
    intro acc
    rw [List.foldl_cons, ih (fun x hx => h x (List.mem_cons_of_mem _ hx)),
      processMeta_desc _ _ (h m (List.mem_cons_self _ _))]

theorem foldl_processMeta_keywords (ms : List MetaTag)
    (h : ∀ m ∈ ms, pyLower m.name ≠ "keywords") :
    ∀ acc : SeoDocument, (List.foldl processMeta acc ms).meta_keywords = acc.meta_keywords := by
  induction ms with
  | nil => intro acc; rfl
  | cons m ms ih =>
    intro acc
    rw [List.foldl_cons, ih (fun x hx => h x (List.mem_cons_of_mem _ hx)),
      processMeta_keywords _ _ (h m (List.mem_cons_self _ _))]

theorem foldl_processMeta_og (ms : List MetaTag)
    (h : ∀ m ∈ ms, pyStartswith (pyLower m.property) "og:" = false) :
    ∀ acc : SeoDocument, (List.foldl processMeta acc ms).og_tags = acc.og_tags := by
  induction ms with
  | nil => intro acc; rfl
  | cons m ms ih =>
    intro acc
    rw [List.foldl_cons, ih (fun x hx => h x (List.mem_cons_of_mem _ hx)),
      processMeta_og _ _ (h m (List.mem_cons_self _ _))]

theorem foldl_processMeta_twitter (ms : List MetaTag)
    (h : ∀ m ∈ ms, pyStartswith (pyLower m.name) "twitter:" = false) :
    ∀ acc : SeoDocument, (List.foldl processMeta acc ms).twitter_tags = acc.twitter_tags := by
  induction ms with
  | nil => intro acc; rfl
  | cons m ms ih =>
    intro acc
    rw [List.foldl_cons, ih (fun x hx => h x (List.mem_cons_of_mem _ hx)),
      processMeta_twitter _ _ (h m (List.mem_cons_self _ _))]

/-- C8: extraction from a parsed document is total, and every field of the
resulting `seo_data` is present, defaulting to the empty string / empty
mapping / empty sequence when the corresponding tag is missing. -/
theorem C8_extraction_defaults (url : String) (t : ParsedDoc) :
    extract_seo_tags url (some t) = seoDataDict (buildSeoData url t) ∧
    (buildSeoData url t).url = url ∧
    (t.titleTag = none → (buildSeoData url t).title = "") ∧
    ((∀ m ∈ t.metas, pyLower m.name ≠ "description") →
      (buildSeoData url t).meta_description = "") ∧
    ((∀ m ∈ t.metas, pyLower m.name ≠ "keywords") →
      (buildSeoData url t).meta_keywords = "") ∧
    ((∀ m ∈ t.metas, pyStartswith (pyLower m.property) "og:" = false) →
      (buildSeoData url t).og_tags = []) ∧
    ((∀ m ∈ t.metas, pyStartswith (pyLower m.name) "twitter:" = false) →
      (buildSeoData url t).twitter_tags = []) ∧
    (t.h1s = [] → (buildSeoData url t).h1_tags = []) ∧
    (t.canonicalTag = none → (buildSeoData url t).canonical = "") := by
  refine ⟨rfl, ?_, ?_, ?_, ?_, ?_, ?_, ?_, ?_⟩
  · cases hc : t.canonicalTag <;> cases ht : t.titleTag <;>
      simp [buildSeoData, hc, ht, foldl_processMeta_url]
  · intro ht
    cases hc : t.canonicalTag <;>
      simp [buildSeoData, hc, ht, foldl_processMeta_title]
  · intro h
    cases hc : t.canonicalTag <;> cases ht : t.titleTag <;>
      simp [buildSeoData, hc, ht, foldl_processMeta_desc _ h]
  · intro h
    cases hc : t.canonicalTag <;> cases ht : t.titleTag <;>
      simp [buildSeoData, hc, ht, foldl_processMeta_keywords _ h]
  · intro h
    cases hc : t.canonicalTag <;> cases ht : t.titleTag <;>
      simp [buildSeoData, hc, ht, foldl_processMeta_og _ h]
  · intro h
    cases hc : t.canonicalTag <;> cases ht : t.titleTag <;>
      simp [buildSeoData, hc, ht, foldl_processMeta_twitter _ h]
  · intro hh
    cases hc : t.canonicalTag <;> cases ht : t.titleTag <;>
      simp [buildSeoData, hc, ht, hh]
  · intro hcan
    cases ht : t.titleTag <;>
      simp [buildSeoData, hcan, ht, foldl_processMeta_canonical]

/-- Witness for C5: a `description` meta is routed to `meta_description`, and
of two metas with the same (lower-cased) `og:` property the later value
wins. -/
theorem C5_witness :
    processMeta emptySeoDoc { name := "Description", property := "", content := "x" } =
      { emptySeoDoc with meta_description := "x" } ∧
    alookup (List.foldl processMeta emptySeoDoc
      [{ name := "", property := "OG:Image", content := "a" },
       { name := "", property := "OG:Image", content := "b" }]).og_tags "og:image" =
      some "b" := by
  have h := C5_meta_classification emptySeoDoc
    { name := "Description", property := "", content := "x" }
    { name := "", property := "OG:Image", content := "a" }
    { name := "", property := "OG:Image", content := "b" }
  exact ⟨h.1 (by decide),
    h.2.2.2.2.2.1 "og:image" (by decide) (by decide) (by decide) (by decide)
      (by decide) (by decide) (by decide)⟩

/-- Witness for C8: extraction from a document with no title, meta, h1 or
canonical tags yields all-empty defaults. -/
theorem C8_witness :
    (buildSeoData "https://x" emptyParsedDoc).title = "" ∧
    (buildSeoData "https://x" emptyParsedDoc).meta_description = "" ∧
    (buildSeoData "https://x" emptyParsedDoc).meta_keywords = "" ∧
    (buildSeoData "https://x" emptyParsedDoc).og_tags = [] ∧
    (buildSeoData "https://x" emptyParsedDoc).twitter_tags = [] ∧
    (buildSeoData "https://x" emptyParsedDoc).h1_tags = [] ∧
    (buildSeoData "https://x" emptyParsedDoc).canonical = "" := by
  have h := C8_extraction_defaults "https://x" emptyParsedDoc
  exact ⟨h.2.2.1 rfl, h.2.2.2.1 (by simp [emptyParsedDoc]),
    h.2.2.2.2.1 (by simp [emptyParsedDoc]),
    h.2.2.2.2.2.1 (by simp [emptyParsedDoc]),
    h.2.2.2.2.2.2.1 (by simp [emptyParsedDoc]),
    h.2.2.2.2.2.2.2.1 rfl, h.2.2.2.2.2.2.2.2 rfl⟩

theorem pickLatest_append_fresh (l : List Row) (r : Row)
    (h : ∀ x ∈ l, x.analyzed_at < r.analyzed_at) :
    pickLatest (l ++ [r]) = some r := by
  induction l with
  | nil => rfl
  | cons x xs ih =>
    have hx := h x (List.mem_cons_self _ _)
    have hrec := ih (fun y hy => h y (List.mem_cons_of_mem _ hy))
    show pickLatest (x :: (xs ++ [r])) = some r
    unfold pickLatest
    rw [hrec]
    simp [hx]

theorem orEmpty_eq (s : String) : orEmpty s = s := by
  unfold orEmpty
  split <;> simp_all

theorem safe_json_loads_strMap (m : List (String × String)) :
    safe_json_loads (jOfStrMap m) = jOfStrMap m := rfl

theorem safe_json_loads_analysis (a : AnalysisResult) :
    safe_json_loads (jOfAnalysis a) = jOfAnalysis a := rfl

theorem h1_column_roundtrip (l : List String) :
    (if jTruthy (jOfStrList l) then safe_json_loads (jOfStrList l) else Jval.arr []) =
      jOfStrList l := by
  cases l with
  | nil => rfl
  | cons x xs => rfl

theorem mem_own_variations (url : String) : url ∈ get_url_variations url := by
  have h := head_get_url_variations url
  cases hv : get_url_variations url with
  | nil => rw [hv] at h; simp at h
  | cons a l =>
    rw [hv] at h
    simp only [List.head?] at h
    injection h with h
    rw [h]
    exact List.mem_cons_self _ _

theorem get_analysis_by_url_append (db : List Row) (row : Row) (url : String)
    (hurl : row.url = url)
    (hfresh : ∀ x ∈ db, x.analyzed_at < row.analyzed_at) :
    get_analysis_by_url (db ++ [row]) url =
      some [("url", Jval.str row.url),
            ("title", Jval.str (orEmpty row.title)),
            ("meta_description", Jval.str (orEmpty row.meta_description)),
            ("og_tags", safe_json_loads row.og_tags),
            ("twitter_tags", safe_json_loads row.twitter_tags),
            ("h1_tags", if jTruthy row.h1_tags then safe_json_loads row.h1_tags
              else Jval.arr []),
            ("seo_score", Jval.num row.seo_score),
            ("analysis_results", safe_json_loads row.analysis_results),
            ("analyzed_at", Jval.num (Int.ofNat row.analyzed_at))] := by
  unfold get_analysis_by_url
  dsimp only []
  have hcont : (get_url_variations url).contains row.url = true := by
    rw [hurl]
    exact List.elem_eq_true_of_mem (mem_own_variations url)
  rw [List.filter_append]
  have hmem : row.url ∈ get_url_variations url := by
    rw [hurl]
    exact mem_own_variations url
  have hone : List.filter (fun r => (get_url_variations url).contains r.url) [row] = [row] := by
    simp [List.filter, hmem]
  rw [hone, pickLatest_append_fresh _ _ (fun x hx => hfresh x (List.mem_filter.mp hx).1)]

/-- C9 (amended): saving an analysis and reading it back by the exact stored
URL returns a record preserving url, title, meta_description, the og/twitter
mappings, the h1 sequence, the score and the serialized analysis — but the
record contains no `meta_keywords` or `canonical` entry (they are stored yet
not selected back). -/
theorem C9_roundtrip (netloc : String → String) (db : List Row) (d : SeoDocument)
    (a : AnalysisResult) (score : Int) (now : Nat)
    (hfresh : ∀ r ∈ db, r.analyzed_at < now) :
    get_analysis_by_url (save_analysis netloc db d a score now) d.url =
      some [("url", Jval.str d.url),
            ("title", Jval.str d.title),
            ("meta_description", Jval.str d.meta_description),
            ("og_tags", jOfStrMap d.og_tags),
            ("twitter_tags", jOfStrMap d.twitter_tags),
            ("h1_tags", jOfStrList d.h1_tags),
            ("seo_score", Jval.num score),
            ("analysis_results", jOfAnalysis a),
            ("analyzed_at", Jval.num (Int.ofNat now))] ∧
    ∀ rec, get_analysis_by_url (save_analysis netloc db d a score now) d.url = some rec →
      alookup rec "meta_keywords" = none ∧ alookup rec "canonical" = none := by
  unfold save_analysis
  rw [get_analysis_by_url_append _ _ _ rfl hfresh]
  refine ⟨?_, ?_⟩
  · simp [orEmpty_eq, safe_json_loads_strMap, safe_json_loads_analysis, h1_column_roundtrip]
  · intro rec hrec
    injection hrec with hrec
    subst hrec
    constructor <;> rfl

/-- C9 is false as stated: after saving `storedDoc` (whose `meta_keywords` is
`"kw"` and `canonical` is `"c"`) and reading it back by its exact URL, the
returned record exists but contains no `meta_keywords` or `canonical` entry
at all, so those field values are not preserved in the read-back record. -/
theorem C9_counterexample :
    (get_analysis_by_url
      (save_analysis (fun _ => "") [] storedDoc (analyze_seo_quality storedDoc) 40 0)
      "u").isSome = true ∧
    alookup ((get_analysis_by_url
      (save_analysis (fun _ => "") [] storedDoc (analyze_seo_quality storedDoc) 40 0)
      "u").getD []) "meta_keywords" = none ∧
    alookup ((get_analysis_by_url
      (save_analysis (fun _ => "") [] storedDoc (analyze_seo_quality storedDoc) 40 0)
      "u").getD []) "canonical" = none ∧
    storedDoc.meta_keywords = "kw" ∧ storedDoc.canonical = "c" :=
  ⟨rfl, rfl, rfl, rfl, rfl⟩

/-- Witness for the amended C9 at a concrete database state. -/
theorem C9_witness :
    get_analysis_by_url
      (save_analysis (fun _ => "") [] storedDoc (analyze_seo_quality storedDoc) 40 0)
      storedDoc.url =
      some [("url", Jval.str storedDoc.url),
            ("title", Jval.str storedDoc.title),
            ("meta_description", Jval.str storedDoc.meta_description),
            ("og_tags", jOfStrMap storedDoc.og_tags),
            ("twitter_tags", jOfStrMap storedDoc.twitter_tags),
            ("h1_tags", jOfStrList storedDoc.h1_tags),
            ("seo_score", Jval.num 40),
            ("analysis_results", jOfAnalysis (analyze_seo_quality storedDoc)),
            ("analyzed_at", Jval.num (Int.ofNat 0))] :=
  (C9_roundtrip (fun _ => "") [] storedDoc (analyze_seo_quality storedDoc) 40 0
    (by simp)).1
